import Mathlib

/-!
Verification of the simpleEncoder core against its design description.

This file gives a shallow embedding of the components the claims talk
about: the byte readers of `utils/Helper.h`, the WAV container validator
and PCM extractor of `utils/WaveFileWrapper.cpp`, the MPEG frame-header
parser of `utils/Mp3FileWrapper.cpp`, and the dispatcher logic of
`core/Encoder.h` (`scan_input_directory`, `start_encoding`, the worker
claim loop).  Byte buffers are `List Nat` (each entry one byte), machine
words are `Nat` with explicit `% 2 ^ 32` where the C++ works in
`uint32_t`.  Every place the C++ indexes a vector is modelled as an
`Option`-returning lookup, so an out-of-bounds access in the source shows
up as an explicit `.oob` outcome instead of undefined behaviour.
-/

/-- Outcome of running a parser that may perform an out-of-bounds vector
access (undefined behaviour in the C++) or fail to terminate (the chunk
walk can loop forever on adversarial sizes; the embedding bounds it with
fuel). -/
inductive Crash where
  | oob
  | divergence
deriving DecidableEq, Repr

/-- Lift an optional (bounds-checked) read: `none` becomes the
out-of-bounds crash. -/
def liftRead {α : Type} (o : Option α) : Except Crash α :=
  match o with
  | some a => Except.ok a
  | none => Except.error Crash.oob

instance {ε α : Type} [DecidableEq ε] [DecidableEq α] : DecidableEq (Except ε α) := fun a b =>
  match a, b with
  | Except.ok x, Except.ok y =>
    if h : x = y then isTrue (by rw [h]) else isFalse (by intro hc; cases hc; exact h rfl)
  | Except.error x, Except.error y =>
    if h : x = y then isTrue (by rw [h]) else isFalse (by intro hc; cases hc; exact h rfl)
  | Except.ok _, Except.error _ => isFalse (by intro hc; cases hc)
  | Except.error _, Except.ok _ => isFalse (by intro hc; cases hc)

/-- Bounds-checked byte lookup standing for `input[pos]` on a
`std::vector<uint8_t>`: `none` marks an access past the end of the
vector, which the C++ performs unchecked (undefined behaviour). -/
def byteAt : List Nat → Nat → Option Nat
  | [], _ => none
  | b :: _, 0 => some b
  | _ :: rest, n + 1 => byteAt rest n

/-- `utils::Helper::read_as_chars`: copies `length` bytes at `pos` into a
`char` array.  The C++ guard compares `sizeof(target)` — the size of the
pointer, 8 — with `length` and silently does nothing when `length > 8`
(never hit for the 3- and 4-byte tag reads in this repository; modelled
as returning the empty list, i.e. the target stays unwritten).
`std::copy` past the end of the vector is an out-of-bounds access. -/
def Helper.read_as_chars (input : List Nat) (pos length : Nat) : Option (List Nat) :=
  if 8 < length then some []
  else (List.range length).mapM (fun i => byteAt input (pos + i))

/-- `utils::Helper::read_as_uint32_big`: big-endian accumulator that
shifts by `MP3_BIT = 7` bits per byte (not 8).  The accumulated value
never reaches `2 ^ 32`, so the final cast to `uint32_t` is the identity;
the `% 2 ^ 32` mirrors the cast. -/
def Helper.read_as_uint32_big (input : List Nat) (pos : Nat) : Option Nat :=
  match byteAt input pos, byteAt input (pos + 1),
        byteAt input (pos + 2), byteAt input (pos + 3) with
  | some b0, some b1, some b2, some b3 =>
    some (((((((b0 <<< 7) + b1) <<< 7) + b2) <<< 7) + b3) % 2 ^ 32)
  | _, _, _, _ => none

/-- `utils::Helper::read_as_uint32_little`: little-endian 32-bit read
(8-bit shifts). -/
def Helper.read_as_uint32_little (input : List Nat) (pos : Nat) : Option Nat :=
  match byteAt input pos, byteAt input (pos + 1),
        byteAt input (pos + 2), byteAt input (pos + 3) with
  | some b0, some b1, some b2, some b3 =>
    some ((b0 + (b1 <<< 8) + (b2 <<< 16) + (b3 <<< 24)) % 2 ^ 32)
  | _, _, _, _ => none

/-- `utils::Helper::read_as_uint16`: little-endian 16-bit read. -/
def Helper.read_as_uint16 (input : List Nat) (pos : Nat) : Option Nat :=
  match byteAt input pos, byteAt input (pos + 1) with
  | some b0, some b1 => some (b0 + (b1 <<< 8))
  | _, _ => none

/-- `utils::WaveHeader` (utils/WaveHeader.h).  Tag fields hold the raw
bytes read from the file. -/
structure WaveHeader where
  riff : List Nat := []
  file_length : Nat := 0
  wave : List Nat := []
  fmt : List Nat := []
  chunk_size : Nat := 0
  format : Nat := 0
  channels : Nat := 0
  sampes_per_sec : Nat := 0
  bytes_per_sec : Nat := 0
  block_align : Nat := 0
  bits_per_sample : Nat := 0
  data : List Nat := []
  data_size : Nat := 0
deriving DecidableEq, Repr

/-- ASCII bytes of `"RIFF"`. -/
def RIFF_TAG : List Nat := [0x52, 0x49, 0x46, 0x46]

/-- ASCII bytes of `"WAVE"`. -/
def WAVE_TAG : List Nat := [0x57, 0x41, 0x56, 0x45]

/-- ASCII bytes of `"fmt "`. -/
def FMT_TAG : List Nat := [0x66, 0x6D, 0x74, 0x20]

/-- ASCII bytes of `"data"`. -/
def DATA_TAG : List Nat := [0x64, 0x61, 0x74, 0x61]

/-- ASCII bytes of `"LIST"`. -/
def LIST_TAG : List Nat := [0x4C, 0x49, 0x53, 0x54]

/-- The second `while` loop of `WaveFileWrapper::validate`: starting at
`pos` (a `uint32_t`), scan chunks until a `data` tag is found.  The loop
guard is `pos + 4 < contents.size()` computed in `uint32_t`.  A `LIST`
tag advances `pos` by its declared size; a `data` tag reads `data_size`
and stops; any other tag just advances by the 4 tag bytes.  `fuel` bounds
the iteration count (the C++ loops forever when the position cycles). -/
def validate_data_loop (contents : List Nat) (fuel : Nat) (pos : Nat)
    (header : WaveHeader) : Except Crash (Option WaveHeader) :=
  match fuel with
  | 0 => Except.error Crash.divergence
  | fuel + 1 =>
    if (pos + 4) % 2 ^ 32 < contents.length then do
      let tag ← liftRead (Helper.read_as_chars contents pos 4)
      let header := { header with data := tag }
      let pos := (pos + 4) % 2 ^ 32
      if tag = LIST_TAG then do
        let info_size ← liftRead (Helper.read_as_uint32_little contents pos)
        validate_data_loop contents fuel ((pos + info_size) % 2 ^ 32) header
      else if tag = DATA_TAG then do
        let ds ← liftRead (Helper.read_as_uint32_little contents pos)
        pure (some { header with data_size := ds })
      else
        validate_data_loop contents fuel pos header
    else
      pure (none)

/-- `utils::WaveFileWrapper::validate`, from the point where the file
contents are in memory.  `h0` is the caller's (uninitialised) header;
the C++ writes fields into it as it parses, and returns `false` or
`true`.  Result: `.ok (b, h)` models a normal return of `b` with the
header holding `h`; `.error` models an out-of-bounds access or a
non-terminating chunk walk. -/
def WaveFileWrapper.validate (contents : List Nat) (h0 : WaveHeader) :
    Except Crash (Bool × WaveHeader) := do
  if contents.length < 44 then
    pure (false, h0)
  else do
    let riff ← liftRead (Helper.read_as_chars contents 0 4)
    let h := { h0 with riff := riff }
    if riff ≠ RIFF_TAG then
      pure (false, h)
    else do
      let fl ← liftRead (Helper.read_as_uint32_little contents 4)
      let wave ← liftRead (Helper.read_as_chars contents 8 4)
      let h := { h with file_length := fl, wave := wave }
      if wave ≠ WAVE_TAG then
        pure (false, h)
      else do
        -- first while loop: runs at most once (tag mismatch returns,
        -- a match breaks); the guard 12 + 4 < size always holds here
        -- because size ≥ 44.
        let fmt ← liftRead (Helper.read_as_chars contents 12 4)
        let h := { h with fmt := fmt }
        if fmt ≠ FMT_TAG then
          pure (false, h)
        else do
          let cs ← liftRead (Helper.read_as_uint32_little contents 16)
          let pos_data := (20 + cs) % 2 ^ 32
          let fo ← liftRead (Helper.read_as_uint16 contents 20)
          let ch ← liftRead (Helper.read_as_uint16 contents 22)
          let sps ← liftRead (Helper.read_as_uint32_little contents 24)
          let bps ← liftRead (Helper.read_as_uint32_little contents 28)
          let ba ← liftRead (Helper.read_as_uint16 contents 32)
          let bits ← liftRead (Helper.read_as_uint16 contents 34)
          let h := { h with chunk_size := cs, format := fo, channels := ch,
                            sampes_per_sec := sps, bytes_per_sec := bps,
                            block_align := ba, bits_per_sample := bits }
          -- `if (pos != pos_data) pos = pos_data;` — continue at pos_data
          match ← validate_data_loop contents (contents.length + 1) pos_data h with
          | some h => pure (true, h)
          | none => pure (false, h)

/-- A well-formed minimal stereo WAV image: canonical 44-byte header
(`chunk_size = 16`, `format = 1`, `channels = 2`, `block_align = 4`,
`bits_per_sample = 16`) followed by `data_size = 8` payload bytes.  The
two format bytes are parameters so the format field can be varied. -/
def wavImage (f0 f1 : Nat) : List Nat :=
  [0x52, 0x49, 0x46, 0x46,              -- "RIFF"
   44, 0, 0, 0,                         -- file_length
   0x57, 0x41, 0x56, 0x45,              -- "WAVE"
   0x66, 0x6D, 0x74, 0x20,              -- "fmt "
   16, 0, 0, 0,                         -- chunk_size = 16
   f0, f1,                              -- format (little endian)
   2, 0,                                -- channels = 2
   0x44, 0xAC, 0, 0,                    -- sample rate 44100
   0x10, 0xB1, 2, 0,                    -- byte rate 176400
   4, 0,                                -- block_align = 4
   16, 0,                               -- bits_per_sample = 16
   0x64, 0x61, 0x74, 0x61,              -- "data"
   8, 0, 0, 0,                          -- data_size = 8
   1, 0, 2, 0, 3, 0, 4, 0]              -- payload: sample pairs (1,2) and (3,4)

/-- Header produced by a successful parse of `wavImage f0 f1`. -/
def wavImageHeader (f0 f1 : Nat) : WaveHeader :=
  { riff := RIFF_TAG, file_length := 44, wave := WAVE_TAG, fmt := FMT_TAG,
    chunk_size := 16, format := (f0 + (f1 <<< 8)),
    channels := 2, sampes_per_sec := 44100, bytes_per_sec := 176400,
    block_align := 4, bits_per_sample := 16, data := DATA_TAG, data_size := 8 }

/-- A 46-byte buffer on which the chunk walk reads past the end of the
vector: the fmt chunk declares `chunk_size = 21`, placing the `data` tag
at offset 41, so the 4-byte `data_size` read starts at offset 45 with
only one byte left. -/
def wavOobImage : List Nat :=
  [0x52, 0x49, 0x46, 0x46,              -- "RIFF"
   44, 0, 0, 0,                         -- file_length
   0x57, 0x41, 0x56, 0x45,              -- "WAVE"
   0x66, 0x6D, 0x74, 0x20,              -- "fmt "
   21, 0, 0, 0,                         -- chunk_size = 21 -> pos_data = 41
   1, 0,                                -- format = 1
   2, 0,                                -- channels = 2
   0x44, 0xAC, 0, 0,                    -- sample rate
   0x10, 0xB1, 2, 0,                    -- byte rate
   4, 0,                                -- block_align
   16, 0,                               -- bits_per_sample
   0, 0, 0, 0, 0,                       -- 5 filler bytes (offsets 36..40)
   0x64, 0x61, 0x74, 0x61,              -- "data" at offsets 41..44
   0]                                   -- single byte at offset 45

/-- State of the `std::ifstream` used by `get_wave_data`: a read
position and the fail bit (set by a read that finds fewer bytes than
requested; once set, further reads transfer nothing). -/
structure RStream where
  spos : Nat
  sfail : Bool
deriving DecidableEq, Repr

/-- `input.read(buf, count)`: returns the bytes actually transferred
(`none` cells where nothing was written because the stream ran out or had
already failed) and the new stream state. -/
def stream_read (file : List Nat) (st : RStream) (count : Nat) :
    List (Option Nat) × RStream :=
  if st.sfail then (List.replicate count none, st)
  else
    let avail := file.length - st.spos
    if count ≤ avail then
      (((file.drop st.spos).take count).map some, ⟨st.spos + count, false⟩)
    else
      (((file.drop st.spos).take avail).map some ++ List.replicate (count - avail) none,
       ⟨file.length, true⟩)

/-- Cell lookup in a partially initialised byte buffer: `none` both when
the index is outside the list and when the cell was never written. -/
def cellAt : List (Option Nat) → Nat → Option Nat
  | [], _ => none
  | c :: _, 0 => c
  | _ :: rest, n + 1 => cellAt rest n

/-- The 16-bit little-endian value of one `int16_t` slot of a sample
buffer; `none` when either byte is uninitialised. -/
def slotWord (bytes : List (Option Nat)) (i : Nat) : Option Nat :=
  match cellAt bytes (2 * i), cellAt bytes (2 * i + 1) with
  | some b0, some b1 => some (b0 + 256 * b1)
  | _, _ => none

/-- The stereo read loop of `get_wave_data`: for each of `samples`
iterations, read `bpc = block_align / channels` bytes into `left[i]`,
then `bpc` bytes into `right[i]`.  Returns the slot words in order. -/
def stereo_loop (file : List Nat) (bpc : Nat) :
    Nat → RStream → List (Option Nat) → List (Option Nat) →
    List (Option Nat) × List (Option Nat) × RStream
  | 0, st, accL, accR => (accL.reverse, accR.reverse, st)
  | i + 1, st, accL, accR =>
    let (lb, st1) := stream_read file st bpc
    let (rb, st2) := stream_read file st1 bpc
    stereo_loop file bpc i st2 (slotWord lb 0 :: accL) (slotWord rb 0 :: accR)

/-- Result of `get_wave_data`.  The C++ takes `header_data`, `left` and
`right` by reference; a field holding `none` means the call returned
without writing that reference, so the caller still sees exactly what it
passed in. -/
structure WaveData where
  ret : Bool
  header_out : Option WaveHeader
  left_out : Option (List (Option Nat))
  right_out : Option (List (Option Nat))
deriving DecidableEq, Repr

/-- `utils::WaveFileWrapper::get_wave_data`.  `m_valid` and `m_header`
are the wrapper state set by the constructor's `validate` call; `file` is
the on-disk content at `m_filename` (`none` when the file cannot be
opened).  The C++ seeks to `sizeof(header_data)` — the fixed struct size
44 — and reads from there, whatever the parsed layout was.  Divisions are
C++ integer divisions (a zero `block_align` or `channels` would be UB in
the source; Lean's `/ 0 = 0` stands in, no claim exercises it).  Writing
more than 2 bytes into an `int16_t` slot or more slots than were
allocated is a heap overflow, reported as `.error .oob`. -/
def WaveFileWrapper.get_wave_data (m_valid : Bool) (m_header : WaveHeader)
    (file : Option (List Nat)) : Except Crash WaveData :=
  if m_valid = false then
    Except.ok ⟨false, none, none, none⟩
  else
    let samples := m_header.data_size / m_header.block_align
    match file with
    | none => Except.ok ⟨false, none, none, none⟩
    | some bytes =>
      let header_data := m_header
      let st0 : RStream := ⟨44, false⟩
      let n := header_data.data_size / header_data.channels / 2
      if header_data.channels = 1 then
        let request := header_data.block_align * samples
        if 2 * n < request then Except.error Crash.oob
        else
          let (buf, _) := stream_read bytes st0 request
          Except.ok ⟨true, some header_data, some ((List.range n).map (slotWord buf)), none⟩
      else
        let bpc := header_data.block_align / header_data.channels
        if 2 < bpc ∨ n < samples then Except.error Crash.oob
        else
          let (ls, rs, _) := stereo_loop bytes bpc samples st0 [] []
          Except.ok ⟨true, some header_data,
                     some (ls ++ List.replicate (n - samples) none),
                     some (rs ++ List.replicate (n - samples) none)⟩

/-- A valid WAV image whose fmt chunk has `chunk_size = 18` (the two
trailing format bytes are skipped by the parser), so the `data` payload
begins at byte offset 46, not 44. -/
def wav18Image : List Nat :=
  [0x52, 0x49, 0x46, 0x46,              -- "RIFF"
   46, 0, 0, 0,                         -- file_length
   0x57, 0x41, 0x56, 0x45,              -- "WAVE"
   0x66, 0x6D, 0x74, 0x20,              -- "fmt "
   18, 0, 0, 0,                         -- chunk_size = 18 -> pos_data = 38
   1, 0,                                -- format = 1 (PCM)
   2, 0,                                -- channels = 2
   0x44, 0xAC, 0, 0,                    -- sample rate 44100
   0x10, 0xB1, 2, 0,                    -- byte rate
   4, 0,                                -- block_align = 4
   16, 0,                               -- bits_per_sample = 16
   0, 0,                                -- the 2 extra fmt bytes (offsets 36..37)
   0x64, 0x61, 0x74, 0x61,              -- "data" at offsets 38..41
   8, 0, 0, 0,                          -- data_size = 8 at offsets 42..45
   1, 0, 2, 0, 3, 0, 4, 0]              -- payload at offsets 46..53

/-- Header produced by a successful parse of `wav18Image`. -/
def wav18Header : WaveHeader :=
  { riff := RIFF_TAG, file_length := 46, wave := WAVE_TAG, fmt := FMT_TAG,
    chunk_size := 18, format := 1, channels := 2, sampes_per_sec := 44100,
    bytes_per_sec := 176400, block_align := 4, bits_per_sample := 16,
    data := DATA_TAG, data_size := 8 }

/-- `utils::Mp3Header` (utils/Mp3Header.h).  `mpeg_version` is a C++
`float` taking only the exactly-representable values 0, 1, 2 and 2.5,
modelled as a rational.  The `bool info[3]` array is split into three
fields. -/
structure Mp3Header where
  mpeg_version : ℚ := 0
  layer : Nat := 0
  crc : Bool := false
  info0 : Bool := false
  info1 : Bool := false
  info2 : Bool := false
  emphasis : Nat := 0
  sampling_rate : Nat := 0
  channel_mode : Nat := 0
  mode_extension0 : Nat := 0
  mode_extension1 : Nat := 0
  padding : Bool := false
  bit_rate : Nat := 0
  frame_size : Nat := 0
deriving DecidableEq, Repr

/-- `get_flags` (anonymous namespace of Mp3FileWrapper.cpp): rejects the
flag byte when any of bits 0-3 is set, otherwise returns the four flag
booleans taken from bits 4-7 (`tag.flags[0] = bit 4`, …). -/
def get_flags (flag : Nat) : Option (List Bool) :=
  if (flag >>> 0) &&& 1 ≠ 0 ∨ (flag >>> 1) &&& 1 ≠ 0 ∨
     (flag >>> 2) &&& 1 ≠ 0 ∨ (flag >>> 3) &&& 1 ≠ 0 then none
  else
    some [(flag >>> 4) &&& 1 ≠ 0, (flag >>> 5) &&& 1 ≠ 0,
          (flag >>> 6) &&& 1 ≠ 0, (flag >>> 7) &&& 1 ≠ 0]

/-- `get_mpeg_version_layer_crc` (anonymous namespace of
Mp3FileWrapper.cpp): maps the two version bits (0x10, 0x08) of byte 1 to
versions 1, 2, reserved (0) and 2.5; the layer store `val << 5` in the
C++ is dead (immediately overwritten by `val >> 6`). -/
def get_mpeg_version_layer_crc (val : Nat) (header : Mp3Header) : Mp3Header :=
  let header :=
    if val &&& 0x10 = 0x10 ∧ val &&& 0x08 = 0x08 then
      { header with mpeg_version := 1 }
    else if val &&& 0x10 = 0x10 ∧ ¬(val &&& 0x08 = 0x08) then
      { header with mpeg_version := 2 }
    else if ¬(val &&& 0x10 = 0x10) ∧ val &&& 0x08 = 0x08 then
      { header with mpeg_version := 0 }
    else if ¬(val &&& 0x10 = 0x10) ∧ ¬(val &&& 0x08 = 0x08) then
      { header with mpeg_version := 5 / 2 }
    else
      { header with mpeg_version := 0 }
  let layer := val >>> 6
  { header with layer := 4 - layer, crc := val &&& 0x01 = 1 }

/-- The `rates[3][3]` table of `get_sampling_rate`: rows for MPEG
versions 1, 2 and 2.5, columns for rate codes 0, 1, 2. -/
def mp3_rates : List (List Nat) :=
  [[44100, 48000, 32000], [22050, 24000, 16000], [11025, 12000, 8000]]

/-- The `for (version = 1; version <= 3; version++)` loop of
`get_sampling_rate`: the integer loop index is compared with the float
`mpeg_version` field (so the value 2.5 matches no iteration), and the
2-bit rate code of `val` (bits 0x08, 0x04) selects the column; the
both-bits-set combination assigns nothing and the loop moves on. -/
def sampling_rate_loop (val : Nat) : List Nat → Mp3Header → Mp3Header
  | [], header => header
  | version :: rest, header =>
    if header.mpeg_version = (version : ℚ) then
      let row := mp3_rates.getD (version - 1) []
      if ¬(val &&& 0x08 = 0x08) ∧ ¬(val &&& 0x04 = 0x04) then
        { header with sampling_rate := row.getD 0 0 }
      else if ¬(val &&& 0x08 = 0x08) ∧ val &&& 0x04 = 0x04 then
        { header with sampling_rate := row.getD 1 0 }
      else if val &&& 0x08 = 0x08 ∧ ¬(val &&& 0x04 = 0x04) then
        { header with sampling_rate := row.getD 2 0 }
      else
        sampling_rate_loop val rest header
    else
      sampling_rate_loop val rest header

/-- `get_sampling_rate` (anonymous namespace of Mp3FileWrapper.cpp). -/
def get_sampling_rate (val : Nat) (header : Mp3Header) : Mp3Header :=
  sampling_rate_loop val [1, 2, 3] header

/-- `utils::Mp3FileWrapper::get_mp3header`.  `h0` is the caller's
(uninitialised) header; fields the parser does not assign keep their
incoming values, exactly as the C++ leaves those struct members
untouched.  Bytes `offset + 1 .. offset + 4` are accessed unchecked in
the source; a missing one is the out-of-bounds crash. -/
def Mp3FileWrapper.get_mp3header (contents : List Nat) (offset : Nat) (h0 : Mp3Header) :
    Except Crash (Bool × Mp3Header) :=
  if offset ≥ contents.length then Except.ok (false, h0)
  else
    match byteAt contents offset with
    | none => Except.error Crash.oob
    | some b0 =>
      if b0 ≠ 0xFF then Except.ok (false, h0)
      else
        match byteAt contents (offset + 1), byteAt contents (offset + 2),
              byteAt contents (offset + 3), byteAt contents (offset + 4) with
        | some b1, some b2, some b3, some b4 =>
          let header := get_mpeg_version_layer_crc b1 h0
          let header := { header with
            info0 := b2 &&& 0x01 ≠ 0,
            info1 := b3 &&& 0x08 ≠ 0,
            info2 := b4 &&& 0x04 ≠ 0,
            emphasis := ((b3 <<< 6) % 2 ^ 32) >>> 6 }
          let header := get_sampling_rate b2 header
          Except.ok (true, header)
        | _, _, _, _ => Except.error Crash.oob

/-- The ID3 header prefix of `Mp3FileWrapper::get_id3tags` up to the
syncsafe tag-size read: `"ID3"` marker (3 bytes), version major and
revision (2 bytes, not inspected), the flag byte at offset 5 whose low
nibble must be clear (`get_flags`), then the 4-byte tag size read with
`Helper::read_as_uint32_big` at offset 6 into `id3tag.offset`.  Inner
`none`: the offset field is never read (no marker, or flags rejected). -/
def get_id3tag_offset (contents : List Nat) : Except Crash (Option Nat) :=
  match Helper.read_as_chars contents 0 3 with
  | none => Except.error Crash.oob
  | some m =>
    if m ≠ [0x49, 0x44, 0x33] then Except.ok none
    else
      match byteAt contents 5 with
      | none => Except.error Crash.oob
      | some flag =>
        match get_flags flag with
        | none => Except.ok none
        | some _ =>
          match Helper.read_as_uint32_big contents 6 with
          | none => Except.error Crash.oob
          | some off => Except.ok (some off)

/-- A minimal ID3 tag header: marker, version 3.0, clear flags, and the
syncsafe size bytes `0x00 0x00 0x02 0x01`. -/
def id3DemoTag : List Nat := [0x49, 0x44, 0x33, 3, 0, 0, 0x00, 0x00, 0x02, 0x01]

/-- `common::ErrorCode` (common/Common.h), restricted to the values the
embedded functions can produce or that the claims mention. -/
inductive ErrorCode where
  | ERROR_NONE
  | ERROR_NOT_FOUND
  | ERROR_READ_FILE
  | ERROR_CANCELLED
  | ERROR_WAV_INVALID
  | ERROR_NOT_IMPLEMENTED
  | ERROR_PTHREAD_CREATE
  | ERROR_PTHREAD_JOIN
  | ERROR_LAME
  | ERROR_IO
deriving DecidableEq, Repr

/-- `common::AudioFormatType`, restricted to the values used here. -/
inductive AudioFormatType where
  | UNKNOWN
  | WAV
  | MP3
  | FLAC
deriving DecidableEq, Repr

/-- `core::Encoder::scan_input_directory`.  Environment inputs stand for
the filesystem calls: `dir_exists` is `fs.directory_exists(dir)`,
`gfp_ok`/`files` the result of `fs.get_file_paths` (which succeeds, with
an empty list, on an empty directory), and `valid` the per-file result of
`WaveFileWrapper::validate`.  Output: the returned error code and the new
`m_input_files` (`none`: the member was not assigned). -/
def Encoder.scan_input_directory (dir_exists gfp_ok : Bool) (files : List String)
    (input_type : AudioFormatType) (valid : String → Bool) :
    ErrorCode × Option (List String) :=
  if dir_exists = false then
    (ErrorCode.ERROR_NOT_FOUND, none)
  else if gfp_ok = false then
    (ErrorCode.ERROR_NOT_FOUND, none)
  else
    let files := if input_type = AudioFormatType.WAV then files.filter valid else files
    (ErrorCode.ERROR_NONE, some files)

/-- `core::Encoder::start_encoding`, return-code path.  `create_ok i` is
whether `pthread_create` succeeds for thread `i` (a failure returns
`ERROR_PTHREAD_CREATE` immediately); `file_results` gives each file's
`process_single_file` outcome — the worker lambda discards that value, so
it cannot influence the returned code, which this definition makes
explicit by taking it as an (unused) argument.  `pthread_join`'s result
is ignored by the source, so after a successful spawn the function always
returns `ERROR_NONE`. -/
def Encoder.start_encoding (input_files : List String) (thread_number : Nat)
    (create_ok : Nat → Bool) (file_results : String → ErrorCode) : ErrorCode :=
  if input_files = [] then
    ErrorCode.ERROR_NOT_FOUND
  else if (List.range thread_number).all create_ok = false then
    ErrorCode.ERROR_PTHREAD_CREATE
  else
    ErrorCode.ERROR_NONE

/-- Status of one worker thread of `start_encoding`: at the top of the
claim loop, inside `process_single_file` on job `j`, or returned. -/
inductive WStatus where
  | looping
  | processing (j : Nat)
  | exited
deriving DecidableEq, Repr

/-- Shared state of one encoding run: `claimed` is the
`m_to_be_encoded_files` map (jobs indexed 0..N-1, in map iteration
order), `workers` the worker threads, `invocations` the number of
`process_single_file` calls made, `cancelled` the atomic flag. -/
structure DState where
  claimed : List Bool
  workers : List WStatus
  invocations : Nat
  cancelled : Bool
deriving DecidableEq, Repr

/-- One atomic step of the run.  `claim w j`: worker `w`, at the top of
its loop, takes the `process_mutex`, scans the map, finds job `j` as the
first unclaimed entry, marks it claimed, releases the lock and invokes
`process_single_file` on it (the C++ also guards on
`!input_file.empty()`, which always holds for paths produced by the
directory scan).  `finish w`: `process_single_file` returns.
`exitEmpty w`: the scan under the lock finds no unclaimed entry, so the
loop ends.  `exitCancel w`: the worker observes `m_cancelled` at the top
of the loop and exits.  `cancel`: some other thread calls
`cancel_encoding`, setting the flag. -/
inductive DStep where
  | claim (w j : Nat)
  | finish (w : Nat)
  | exitEmpty (w : Nat)
  | exitCancel (w : Nat)
  | cancel
deriving DecidableEq, Repr

/-- Index of the first unclaimed entry, as found by the linear scan of
`m_to_be_encoded_files` under `process_mutex`. -/
def firstUnclaimed : List Bool → Option Nat
  | [] => none
  | false :: _ => some 0
  | true :: rest => (firstUnclaimed rest).map (· + 1)

/-- The transition function: `none` when the step is not enabled in the
given state. -/
def dstep (s : DState) : DStep → Option DState
  | DStep.claim w j =>
    if s.workers[w]? = some WStatus.looping ∧ firstUnclaimed s.claimed = some j then
      some { s with claimed := s.claimed.set j true,
                    workers := s.workers.set w (WStatus.processing j),
                    invocations := s.invocations + 1 }
    else none
  | DStep.finish w =>
    match s.workers[w]? with
    | some (WStatus.processing _) => some { s with workers := s.workers.set w WStatus.looping }
    | _ => none
  | DStep.exitEmpty w =>
    if s.workers[w]? = some WStatus.looping ∧ firstUnclaimed s.claimed = none then
      some { s with workers := s.workers.set w WStatus.exited }
    else none
  | DStep.exitCancel w =>
    if s.workers[w]? = some WStatus.looping ∧ s.cancelled = true then
      some { s with workers := s.workers.set w WStatus.exited }
    else none
  | DStep.cancel => some { s with cancelled := true }

/-- Run a list of steps; fails (`none`) as soon as a step is not
enabled. -/
def drun (s : DState) : List DStep → Option DState
  | [] => some s
  | st :: rest => (dstep s st).bind (fun s' => drun s' rest)

/-- Initial state built by `start_encoding`: every map entry unclaimed
(`m_to_be_encoded_files[file] = false`), `thread_number` workers at the
top of their loops, no invocations, `m_cancelled = false`. -/
def dinit (n t : Nat) : DState :=
  { claimed := List.replicate n false,
    workers := List.replicate t WStatus.looping,
    invocations := 0,
    cancelled := false }

/-- Number of `claim` steps for job `j` in a step list. -/
def claimsOf (j : Nat) (l : List DStep) : Nat :=
  l.countP (fun st => match st with
    | DStep.claim _ j' => j' = j
    | _ => false)

/-- No two workers are inside `process_single_file` on the same job. -/
def noTwoInFlight (s : DState) : Prop :=
  ∀ (w w' j : Nat), w ≠ w' → s.workers[w]? = some (WStatus.processing j) →
    s.workers[w']? ≠ some (WStatus.processing j)

/-- Run invariant for cancel-free executions (see the preservation proof
below): the flag stays down, the invocation counter equals the number of
claimed entries, every in-flight job is claimed, in-flight jobs are
mutually distinct, and once some worker has exited every entry is
claimed. -/
structure DInv (s : DState) : Prop where
  nocancel : s.cancelled = false
  count : s.invocations = s.claimed.count true
  proc_claimed : ∀ (w j : Nat), s.workers[w]? = some (WStatus.processing j) →
    s.claimed[j]? = some true
  distinct : noTwoInFlight s
  exited_full : (∃ w : Nat, s.workers[w]? = some WStatus.exited) →
    firstUnclaimed s.claimed = none

/-- The per-file predicate of the `remove_if` filter inside
`scan_input_directory`: `WaveFileWrapper::validate(filename, header)`
with a fresh header, over a filesystem `fsys` mapping names to contents
(`none`: `read_binary_file` fails, so `validate` returns false). -/
def wavFileValid (fsys : String → Option (List Nat)) (name : String) : Bool :=
  match fsys name with
  | none => false
  | some contents =>
    match WaveFileWrapper.validate contents {} with
    | Except.ok (true, _) => true
    | _ => false

/-- A concrete complete run: 2 jobs, 1 worker, which claims and finishes
both jobs and then exits on an empty scan. -/
def demoSteps : List DStep :=
  [DStep.claim 0 0, DStep.finish 0, DStep.claim 0 1, DStep.finish 0, DStep.exitEmpty 0]

/-- The final state of `demoSteps`. -/
def demoFinal : DState := ⟨[true, true], [WStatus.exited], 2, false⟩

/-- C9: a buffer shorter than 44 bytes is rejected before any field is
parsed: `validate` returns `false`, the caller's header is untouched, and
no out-of-bounds access happens (the result is a normal return, not a
crash). -/
theorem validate_short_buffer_invalid (contents : List Nat) (h0 : WaveHeader)
    (hlen : contents.length < 44) :
    WaveFileWrapper.validate contents h0 = Except.ok (false, h0) := by
  simp [WaveFileWrapper.validate, hlen, pure, Except.pure]

/-- C9 witness: the 3-byte buffer `[0, 1, 2]` is shorter than 44 bytes and
is rejected without a crash. -/
theorem validate_short_buffer_invalid_witness :
    ([0, 1, 2] : List Nat).length < 44 ∧
    WaveFileWrapper.validate [0, 1, 2] {} = Except.ok (false, {}) :=
  ⟨by decide, validate_short_buffer_invalid [0, 1, 2] {} (by decide)⟩

/-- C3 counterexample: a byte-exact WAV image with all four tags in order
whose fmt chunk declares `format = 2` (not PCM) is nevertheless accepted:
`validate` returns `true`.  The source of `WaveFileWrapper::validate`
stores the format field but never compares it with 1. -/
theorem validate_accepts_non_pcm :
    WaveFileWrapper.validate (wavImage 2 0) {} = Except.ok (true, wavImageHeader 2 0) ∧
    (wavImageHeader 2 0).format = 2 := by
  constructor
  · decide
  · decide

set_option maxHeartbeats 1000000 in
/-- C3 amended: validation success is independent of the declared format:
for every 16-bit value placed in the format field (bytes `f0`, `f1` at
offsets 20-21), the same image validates successfully, and the parsed
header records that format value unchecked. -/
theorem validate_ignores_format_field (f0 f1 : Nat) (hf0 : f0 < 256) (hf1 : f1 < 256) :
    WaveFileWrapper.validate (wavImage f0 f1) {} = Except.ok (true, wavImageHeader f0 f1) ∧
    (wavImageHeader f0 f1).format = f0 + 256 * f1 := by
  constructor
  · exact rfl
  · show f0 + (f1 <<< 8) = f0 + 256 * f1
    omega

/-- C3 amended witness: the non-PCM format value 2 validates. -/
theorem validate_ignores_format_field_witness :
    2 < 256 ∧ 0 < 256 ∧
    (WaveFileWrapper.validate (wavImage 2 0) {} = Except.ok (true, wavImageHeader 2 0) ∧
     (wavImageHeader 2 0).format = 2 + 256 * 0) :=
  ⟨by decide, by decide, validate_ignores_format_field 2 0 (by decide) (by decide)⟩

/-- C2: on `wavOobImage` the chunk walk of `WaveFileWrapper::validate`
indexes the contents vector out of bounds instead of returning invalid:
the declared fmt `chunk_size` places the `data` tag so that its 4-byte
size read runs past the end of the 46-byte buffer.  The C++ has no bounds
check at this read (`Helper::read_as_uint32_little` indexes blindly), so
it does not hold that `validate` never indexes out of bounds. -/
theorem validate_reads_out_of_bounds :
    WaveFileWrapper.validate wavOobImage {} = Except.error Crash.oob ∧
    wavOobImage.length = 46 := by
  constructor
  · decide
  · decide

/-- C4: `get_wave_data` does not start reading at the data chunk's
payload.  It seeks to `sizeof(header_data)` = 44 unconditionally, so on a
validated file whose fmt chunk has `chunk_size = 18` (payload at offset
46) the returned samples are the bytes at offsets 44..51 — the tail of
the `data_size` field plus the first three sample words — instead of the
payload words 1,2,3,4: the code yields `left = [0, 2]`, `right = [1, 3]`
where the claim requires `left = [1, 3]`, `right = [2, 4]`.  On the
canonical `chunk_size = 16` layout the two offsets coincide and the
result is correct. -/
theorem get_wave_data_wrong_offset_on_chunk18 :
    WaveFileWrapper.validate wav18Image {} = Except.ok (true, wav18Header) ∧
    WaveFileWrapper.get_wave_data true wav18Header (some wav18Image) =
      Except.ok ⟨true, some wav18Header, some [some 0, some 2], some [some 1, some 3]⟩ ∧
    Helper.read_as_uint16 wav18Image 46 = some 1 ∧
    Helper.read_as_uint16 wav18Image 48 = some 2 ∧
    WaveFileWrapper.get_wave_data true (wavImageHeader 1 0) (some (wavImage 1 0)) =
      Except.ok ⟨true, some (wavImageHeader 1 0),
                 some [some 1, some 3], some [some 2, some 4]⟩ := by
  refine ⟨by decide, by decide, by decide, by decide, by decide⟩

/-- C10: whenever `get_wave_data` returns `false` — which happens exactly
when the stored validation flag is false or the file cannot be opened —
it returns before writing the by-reference header or allocating either
sample buffer, so the caller's `header_data`, `left` and `right` are left
exactly as passed in. -/
theorem get_wave_data_error_atomicity (v : Bool) (h : WaveHeader)
    (file : Option (List Nat)) (r : WaveData)
    (hr : WaveFileWrapper.get_wave_data v h file = Except.ok r)
    (hret : r.ret = false) :
    r.header_out = none ∧ r.left_out = none ∧ r.right_out = none ∧
    (v = false ∨ file = none) := by
  unfold WaveFileWrapper.get_wave_data at hr
  by_cases hv : v = false
  · rw [if_pos hv] at hr
    cases hr
    exact ⟨rfl, rfl, rfl, Or.inl hv⟩
  · rw [if_neg hv] at hr
    cases file with
    | none =>
      cases hr
      exact ⟨rfl, rfl, rfl, Or.inr rfl⟩
    | some bytes =>
      simp only [] at hr
      split at hr
      · split at hr
        · cases hr
        · cases hr
          cases hret
      · split at hr
        · cases hr
        · cases hr
          cases hret

/-- C10 witness: an invalid wrapper (validation flag false) returns
`false` with all three by-reference outputs untouched. -/
theorem get_wave_data_error_atomicity_witness :
    WaveFileWrapper.get_wave_data false {} none = Except.ok ⟨false, none, none, none⟩ ∧
    ((⟨false, none, none, none⟩ : WaveData).header_out = none ∧
     (⟨false, none, none, none⟩ : WaveData).left_out = none ∧
     (⟨false, none, none, none⟩ : WaveData).right_out = none ∧
     (false = false ∨ (none : Option (List Nat)) = none)) :=
  ⟨by decide, get_wave_data_error_atomicity false {} none ⟨false, none, none, none⟩ (by decide) rfl⟩

/-- C7: the reader used for the ID3 tag size (`Helper::read_as_uint32_big`,
called by `get_id3tags` at the offset-field position, byte 6 of the tag
header) decodes the four bytes `0x00 0x00 0x02 0x01` with 7 bits per
byte, giving `0x101` and not the 8-bit-per-byte value `0x201`. -/
theorem id3_syncsafe_decode :
    Helper.read_as_uint32_big [0x00, 0x00, 0x02, 0x01] 0 = some 0x101 ∧
    get_id3tag_offset id3DemoTag = Except.ok (some 0x101) ∧
    (0x101 : Nat) ≠ 0x201 := by
  refine ⟨by decide, by decide, by decide⟩

/-- C8: on a frame header with version bits (0,0) — MPEG 2.5 — and rate
code 0, `get_mp3header` sets `mpeg_version` to 2.5 but never assigns
`sampling_rate`: the lookup loop compares the float 2.5 against the
integer indices 1, 2, 3, so the table row `[11025, 12000, 8000]` is
unreachable and the field keeps whatever value `h0` (the uninitialised
struct) held, not the 11025 the claim requires. -/
theorem mp3_version25_sampling_rate_unset (h0 : Mp3Header) :
    Mp3FileWrapper.get_mp3header [0xFF, 0x00, 0x00, 0x00, 0x00] 0 h0 =
      Except.ok (true,
        { h0 with mpeg_version := 5 / 2, layer := 4, crc := false,
                  info0 := false, info1 := false, info2 := false, emphasis := 0 }) ∧
    (mp3_rates.getD 2 []).getD 0 0 = 11025 := by
  constructor
  · simp [Mp3FileWrapper.get_mp3header, get_mpeg_version_layer_crc, get_sampling_rate,
          sampling_rate_loop, byteAt, mp3_rates]
    norm_num
  · decide

theorem firstUnclaimed_none_count (bs : List Bool) (h : firstUnclaimed bs = none) :
    bs.count true = bs.length := by
  induction bs with
  | nil => rfl
  | cons b rest ih =>
    cases b with
    | false => simp [firstUnclaimed] at h
    | true =>
      simp only [firstUnclaimed, Option.map_eq_none'] at h
      simp [List.count_cons, ih h]

theorem firstUnclaimed_some_get (bs : List Bool) (j : Nat) (h : firstUnclaimed bs = some j) :
    bs[j]? = some false := by
  induction bs generalizing j with
  | nil => simp [firstUnclaimed] at h
  | cons b rest ih =>
    cases b with
    | false =>
      simp only [firstUnclaimed, Option.some.injEq] at h
      subst h
      simp
    | true =>
      simp only [firstUnclaimed, Option.map_eq_some'] at h
      obtain ⟨j', hj', rfl⟩ := h
      simpa using ih j' hj'

theorem count_set_true (bs : List Bool) (j : Nat) (h : bs[j]? = some false) :
    (bs.set j true).count true = bs.count true + 1 := by
  induction bs generalizing j with
  | nil => simp at h
  | cons b rest ih =>
    cases j with
    | zero =>
      simp only [List.getElem?_cons_zero, Option.some.injEq] at h
      subst h
      simp [List.count_cons]
    | succ j =>
      simp only [List.getElem?_cons_succ] at h
      simp [List.count_cons, ih j h]
      omega

theorem dstep_lengths (s s' : DState) (st : DStep) (h : dstep s st = some s') :
    s'.claimed.length = s.claimed.length ∧ s'.workers.length = s.workers.length := by
  cases st with
  | claim w j =>
    simp only [dstep] at h
    by_cases hc : s.workers[w]? = some WStatus.looping ∧ firstUnclaimed s.claimed = some j
    · rw [if_pos hc] at h
      cases h
      simp
    · rw [if_neg hc] at h
      cases h
  | finish w =>
    simp only [dstep] at h
    cases hw : s.workers[w]? with
    | none => rw [hw] at h; simp at h
    | some ws =>
      cases ws with
      | looping => rw [hw] at h; simp at h
      | processing j => rw [hw] at h; simp at h; cases h; simp
      | exited => rw [hw] at h; simp at h
  | exitEmpty w =>
    simp only [dstep] at h
    by_cases hc : s.workers[w]? = some WStatus.looping ∧ firstUnclaimed s.claimed = none
    · rw [if_pos hc] at h
      cases h
      simp
    · rw [if_neg hc] at h
      cases h
  | exitCancel w =>
    simp only [dstep] at h
    by_cases hc : s.workers[w]? = some WStatus.looping ∧ s.cancelled = true
    · rw [if_pos hc] at h
      cases h
      simp
    · rw [if_neg hc] at h
      cases h
  | cancel =>
    simp only [dstep] at h
    cases h
    simp

theorem drun_lengths (l : List DStep) : ∀ (s s' : DState), drun s l = some s' →
    s'.claimed.length = s.claimed.length ∧ s'.workers.length = s.workers.length := by
  induction l with
  | nil => intro s s' h; cases h; exact ⟨rfl, rfl⟩
  | cons st rest ih =>
    intro s s' h
    unfold drun at h
    cases hd : dstep s st with
    | none => rw [hd] at h; cases h
    | some s1 =>
      rw [hd] at h
      have h1 := dstep_lengths s s1 st hd
      have h2 := ih s1 s' h
      exact ⟨h2.1.trans h1.1, h2.2.trans h1.2⟩

theorem lt_of_getElem?_some {α : Type} (l : List α) (i : Nat) (a : α) (h : l[i]? = some a) :
    i < l.length := by
  by_contra hge
  rw [List.getElem?_eq_none (Nat.le_of_not_lt hge)] at h
  cases h

theorem dstep_inv (s s' : DState) (st : DStep) (hst : st ≠ DStep.cancel)
    (h : dstep s st = some s') (inv : DInv s) : DInv s' := by
  cases st with
  | cancel => exact absurd rfl hst
  | claim w j =>
    simp only [dstep] at h
    by_cases hc : s.workers[w]? = some WStatus.looping ∧ firstUnclaimed s.claimed = some j
    · obtain ⟨hw, hj⟩ := hc
      rw [if_pos ⟨hw, hj⟩] at h
      cases h
      have hjf : s.claimed[j]? = some false := firstUnclaimed_some_get _ _ hj
      have hjlt : j < s.claimed.length := lt_of_getElem?_some _ _ _ hjf
      have hwlt : w < s.workers.length := lt_of_getElem?_some _ _ _ hw
      refine ⟨inv.nocancel, ?_, ?_, ?_, ?_⟩
      · show s.invocations + 1 = (s.claimed.set j true).count true
        rw [count_set_true s.claimed j hjf, inv.count]
      · intro w' j' hwj'
        show (s.claimed.set j true)[j']? = some true
        by_cases hww : w = w'
        · subst hww
          rw [List.getElem?_set, if_pos rfl] at hwj'
          rw [if_pos hwlt] at hwj'
          have hjj : j = j' := by simpa using hwj'
          subst hjj
          rw [List.getElem?_set, if_pos rfl, if_pos hjlt]
        · rw [List.getElem?_set, if_neg hww] at hwj'
          have hcl := inv.proc_claimed w' j' hwj'
          have hne : j ≠ j' := by
            intro e
            rw [← e] at hcl
            rw [hcl] at hjf
            cases hjf
          rw [List.getElem?_set, if_neg hne]
          exact hcl
      · intro w1 w2 j' hne12 h1 h2
        by_cases h1w : w = w1
        · subst h1w
          rw [List.getElem?_set, if_pos rfl, if_pos hwlt] at h1
          have hjj : j = j' := by simpa using h1
          subst hjj
          rw [List.getElem?_set, if_neg (fun e => hne12 e)] at h2
          have hcl := inv.proc_claimed w2 j h2
          rw [hcl] at hjf
          cases hjf
        · by_cases h2w : w = w2
          · subst h2w
            rw [List.getElem?_set, if_pos rfl, if_pos hwlt] at h2
            have hjj : j = j' := by simpa using h2
            subst hjj
            rw [List.getElem?_set, if_neg h1w] at h1
            have hcl := inv.proc_claimed w1 j h1
            rw [hcl] at hjf
            cases hjf
          · rw [List.getElem?_set, if_neg h1w] at h1
            rw [List.getElem?_set, if_neg h2w] at h2
            exact inv.distinct w1 w2 j' hne12 h1 h2
      · rintro ⟨w', hw'⟩
        by_cases hww : w = w'
        · subst hww
          rw [List.getElem?_set, if_pos rfl, if_pos hwlt] at hw'
          cases hw'
        · rw [List.getElem?_set, if_neg hww] at hw'
          have hcontra := inv.exited_full ⟨w', hw'⟩
          rw [hcontra] at hj
          cases hj
    · rw [if_neg hc] at h
      cases h
  | finish w =>
    simp only [dstep] at h
    cases hws : s.workers[w]? with
    | none => rw [hws] at h; simp at h
    | some ws =>
      cases ws with
      | looping => rw [hws] at h; simp at h
      | exited => rw [hws] at h; simp at h
      | processing j0 =>
        rw [hws] at h
        simp only [Option.some.injEq] at h
        subst h
        have hwlt : w < s.workers.length := lt_of_getElem?_some _ _ _ hws
        refine ⟨inv.nocancel, inv.count, ?_, ?_, ?_⟩
        · intro w' j' hwj'
          by_cases hww : w = w'
          · subst hww
            rw [List.getElem?_set, if_pos rfl, if_pos hwlt] at hwj'
            cases hwj'
          · rw [List.getElem?_set, if_neg hww] at hwj'
            exact inv.proc_claimed w' j' hwj'
        · intro w1 w2 j' hne12 h1 h2
          by_cases h1w : w = w1
          · subst h1w
            rw [List.getElem?_set, if_pos rfl, if_pos hwlt] at h1
            cases h1
          · by_cases h2w : w = w2
            · subst h2w
              rw [List.getElem?_set, if_pos rfl, if_pos hwlt] at h2
              cases h2
            · rw [List.getElem?_set, if_neg h1w] at h1
              rw [List.getElem?_set, if_neg h2w] at h2
              exact inv.distinct w1 w2 j' hne12 h1 h2
        · rintro ⟨w', hw'⟩
          by_cases hww : w = w'
          · subst hww
            rw [List.getElem?_set, if_pos rfl, if_pos hwlt] at hw'
            cases hw'
          · rw [List.getElem?_set, if_neg hww] at hw'
            exact inv.exited_full ⟨w', hw'⟩
  | exitEmpty w =>
    simp only [dstep] at h
    by_cases hc : s.workers[w]? = some WStatus.looping ∧ firstUnclaimed s.claimed = none
    · obtain ⟨hw, hnone⟩ := hc
      rw [if_pos ⟨hw, hnone⟩] at h
      cases h
      have hwlt : w < s.workers.length := lt_of_getElem?_some _ _ _ hw
      refine ⟨inv.nocancel, inv.count, ?_, ?_, fun _ => hnone⟩
      · intro w' j' hwj'
        by_cases hww : w = w'
        · subst hww
          rw [List.getElem?_set, if_pos rfl, if_pos hwlt] at hwj'
          cases hwj'
        · rw [List.getElem?_set, if_neg hww] at hwj'
          exact inv.proc_claimed w' j' hwj'
      · intro w1 w2 j' hne12 h1 h2
        by_cases h1w : w = w1
        · subst h1w
          rw [List.getElem?_set, if_pos rfl, if_pos hwlt] at h1
          cases h1
        · by_cases h2w : w = w2
          · subst h2w
            rw [List.getElem?_set, if_pos rfl, if_pos hwlt] at h2
            cases h2
          · rw [List.getElem?_set, if_neg h1w] at h1
            rw [List.getElem?_set, if_neg h2w] at h2
            exact inv.distinct w1 w2 j' hne12 h1 h2
    · rw [if_neg hc] at h
      cases h
  | exitCancel w =>
    simp only [dstep] at h
    by_cases hc : s.workers[w]? = some WStatus.looping ∧ s.cancelled = true
    · have hfc := inv.nocancel
      rw [hc.2] at hfc
      cases hfc
    · rw [if_neg hc] at h
      cases h

theorem drun_inv (l : List DStep) : ∀ (s s' : DState), DStep.cancel ∉ l →
    drun s l = some s' → DInv s → DInv s' := by
  induction l with
  | nil => intro s s' _ h inv; cases h; exact inv
  | cons st rest ih =>
    intro s s' hnc h inv
    unfold drun at h
    cases hd : dstep s st with
    | none => rw [hd] at h; cases h
    | some s1 =>
      rw [hd] at h
      have hst : st ≠ DStep.cancel := fun e => hnc (e ▸ List.mem_cons_self st rest)
      have hrest : DStep.cancel ∉ rest := fun e => hnc (List.mem_cons_of_mem st e)
      exact ih s1 s' hrest h (dstep_inv s s1 st hst hd inv)

theorem claimed_stays (s s' : DState) (st : DStep) (j : Nat)
    (h : dstep s st = some s') (hcl : s.claimed[j]? = some true) :
    s'.claimed[j]? = some true := by
  cases st with
  | claim w j' =>
    simp only [dstep] at h
    by_cases hc : s.workers[w]? = some WStatus.looping ∧ firstUnclaimed s.claimed = some j'
    · rw [if_pos hc] at h
      cases h
      show (s.claimed.set j' true)[j]? = some true
      by_cases hjj : j' = j
      · subst hjj
        have hjf := firstUnclaimed_some_get _ _ hc.2
        rw [hjf] at hcl
        cases hcl
      · rw [List.getElem?_set, if_neg hjj]
        exact hcl
    · rw [if_neg hc] at h
      cases h
  | finish w =>
    simp only [dstep] at h
    cases hws : s.workers[w]? with
    | none => rw [hws] at h; simp at h
    | some ws =>
      cases ws with
      | looping => rw [hws] at h; simp at h
      | exited => rw [hws] at h; simp at h
      | processing j0 =>
        rw [hws] at h
        simp only [Option.some.injEq] at h
        subst h
        exact hcl
  | exitEmpty w =>
    simp only [dstep] at h
    by_cases hc : s.workers[w]? = some WStatus.looping ∧ firstUnclaimed s.claimed = none
    · rw [if_pos hc] at h
      cases h
      exact hcl
    · rw [if_neg hc] at h
      cases h
  | exitCancel w =>
    simp only [dstep] at h
    by_cases hc : s.workers[w]? = some WStatus.looping ∧ s.cancelled = true
    · rw [if_pos hc] at h
      cases h
      exact hcl
    · rw [if_neg hc] at h
      cases h
  | cancel =>
    simp only [dstep] at h
    cases h
    exact hcl

theorem claimsOf_zero_of_claimed (l : List DStep) (j : Nat) :
    ∀ (s s' : DState), drun s l = some s' → s.claimed[j]? = some true →
      claimsOf j l = 0 := by
  induction l with
  | nil => intro s s' _ _; rfl
  | cons st rest ih =>
    intro s s' h hcl
    unfold drun at h
    cases hd : dstep s st with
    | none => rw [hd] at h; cases h
    | some s1 =>
      rw [hd] at h
      have hcl1 := claimed_stays s s1 st j hd hcl
      have hrest := ih s1 s' h hcl1
      unfold claimsOf at hrest ⊢
      rw [List.countP_cons, hrest]
      cases st with
      | claim w j' =>
        by_cases hjj : j' = j
        · subst hjj
          exfalso
          simp only [dstep] at hd
          by_cases hc : s.workers[w]? = some WStatus.looping ∧ firstUnclaimed s.claimed = some j'
          · have hjf := firstUnclaimed_some_get _ _ hc.2
            rw [hjf] at hcl
            cases hcl
          · rw [if_neg hc] at hd
            cases hd
        · simp [hjj]
      | finish w => simp
      | exitEmpty w => simp
      | exitCancel w => simp
      | cancel => simp

theorem claimsOf_le_one (l : List DStep) (j : Nat) :
    ∀ (s s' : DState), drun s l = some s' → claimsOf j l ≤ 1 := by
  induction l with
  | nil => intro s s' _; simp [claimsOf]
  | cons st rest ih =>
    intro s s' h
    unfold drun at h
    cases hd : dstep s st with
    | none => rw [hd] at h; cases h
    | some s1 =>
      rw [hd] at h
      unfold claimsOf
      rw [List.countP_cons]
      cases st with
      | claim w j' =>
        by_cases hjj : j' = j
        · subst hjj
          have hps : s1.claimed[j']? = some true := by
            simp only [dstep] at hd
            by_cases hc : s.workers[w]? = some WStatus.looping ∧
                firstUnclaimed s.claimed = some j'
            · rw [if_pos hc] at hd
              cases hd
              have hjf := firstUnclaimed_some_get _ _ hc.2
              have hjlt := lt_of_getElem?_some _ _ _ hjf
              show (s.claimed.set j' true)[j']? = some true
              rw [List.getElem?_set, if_pos rfl, if_pos hjlt]
            · rw [if_neg hc] at hd
              cases hd
          have h0 := claimsOf_zero_of_claimed rest j' s1 s' h hps
          unfold claimsOf at h0
          rw [h0]
          simp
        · have hle := ih s1 s' h
          unfold claimsOf at hle
          simpa [hjj] using hle
      | finish w => simpa [claimsOf] using ih s1 s' h
      | exitEmpty w => simpa [claimsOf] using ih s1 s' h
      | exitCancel w => simpa [claimsOf] using ih s1 s' h
      | cancel => simpa [claimsOf] using ih s1 s' h

/-- C1: exactly-once dispatch.  For every completed run of the worker
claim loop over `N` jobs with `T` workers (`1 ≤ T ≤ N`) in which
`cancel_encoding` is never called (no `cancel` step), the total number of
`process_single_file` invocations equals `N`; each job is claimed at most
once over the whole run; and at every intermediate state no two workers
are in flight on the same job — claiming is atomic because the scan and
mark happen under the single `process_mutex`. -/
theorem dispatcher_exactly_once (N T : Nat) (steps : List DStep) (final : DState)
    (hT1 : 1 ≤ T) (hTN : T ≤ N)
    (hnc : DStep.cancel ∉ steps)
    (hrun : drun (dinit N T) steps = some final)
    (hdone : ∀ ws ∈ final.workers, ws = WStatus.exited) :
    final.invocations = N ∧
    (∀ j, claimsOf j steps ≤ 1) ∧
    (∀ pre suf s', steps = pre ++ suf → drun (dinit N T) pre = some s' →
      noTwoInFlight s') := by
  have hinv0 : DInv (dinit N T) := by
    refine ⟨rfl, by simp [dinit, List.count_replicate], ?_, ?_, ?_⟩
    · intro w j hw
      simp only [dinit, List.getElem?_replicate] at hw
      split at hw <;> simp at hw
    · intro w1 w2 j hne h1 h2
      simp only [dinit, List.getElem?_replicate] at h1
      split at h1 <;> simp at h1
    · rintro ⟨w, hw⟩
      simp only [dinit, List.getElem?_replicate] at hw
      split at hw <;> simp at hw
  have hinv := drun_inv steps (dinit N T) final hnc hrun hinv0
  have hlens := drun_lengths steps (dinit N T) final hrun
  have hclen : final.claimed.length = N := by simpa [dinit] using hlens.1
  have hwlen : final.workers.length = T := by simpa [dinit] using hlens.2
  have hw0lt : 0 < final.workers.length := by omega
  have hnone : firstUnclaimed final.claimed = none := by
    cases hxx : final.workers[0]? with
    | none =>
      rw [List.getElem?_eq_none_iff] at hxx
      omega
    | some x =>
      have hex := hdone x (List.getElem?_mem hxx)
      subst hex
      exact hinv.exited_full ⟨0, hxx⟩
  have hcount := firstUnclaimed_none_count _ hnone
  refine ⟨?_, ?_, ?_⟩
  · rw [hinv.count, hcount, hclen]
  · intro j
    exact claimsOf_le_one steps j (dinit N T) final hrun
  · intro pre suf s' hsplit hpre
    have hncpre : DStep.cancel ∉ pre := by
      intro hm
      exact hnc (hsplit ▸ List.mem_append_left suf hm)
    exact (drun_inv pre (dinit N T) s' hncpre hpre hinv0).distinct

/-- C1 witness: the concrete 2-job, 1-worker run `demoSteps` completes
with both workers exited and exactly 2 invocations. -/
theorem dispatcher_exactly_once_witness :
    (1 ≤ 1 ∧ (1 : Nat) ≤ 2 ∧ DStep.cancel ∉ demoSteps ∧
     drun (dinit 2 1) demoSteps = some demoFinal ∧
     (∀ ws ∈ demoFinal.workers, ws = WStatus.exited)) ∧
    demoFinal.invocations = 2 :=
  ⟨⟨by decide, by decide, by decide, by decide, by decide⟩,
   (dispatcher_exactly_once 2 1 demoSteps demoFinal (by decide) (by decide)
     (by decide) (by decide) (by decide)).1⟩

/-- C5: `start_encoding` returns `ERROR_NOT_FOUND` exactly when the job
set is empty; otherwise, provided every `pthread_create` succeeds (the
source ignores `pthread_join` results entirely), it returns `ERROR_NONE`
for every possible assignment of per-file `process_single_file` results —
the worker lambda discards that return value, so per-file failures are
only visible through the status callback and can never change the
aggregate return code. -/
theorem start_encoding_result (files : List String) (tn : Nat)
    (create_ok : Nat → Bool) (file_results : String → ErrorCode) :
    (Encoder.start_encoding files tn create_ok file_results = ErrorCode.ERROR_NOT_FOUND ↔
      files = []) ∧
    (files ≠ [] → (∀ i, i < tn → create_ok i = true) →
      Encoder.start_encoding files tn create_ok file_results = ErrorCode.ERROR_NONE) := by
  constructor
  · constructor
    · intro h
      by_contra hne
      unfold Encoder.start_encoding at h
      rw [if_neg hne] at h
      split at h
      · cases h
      · cases h
    · intro h
      subst h
      rfl
  · intro hne hcr
    unfold Encoder.start_encoding
    rw [if_neg hne]
    have hall : (List.range tn).all create_ok = true := by
      rw [List.all_eq_true]
      intro i hi
      exact hcr i (List.mem_range.mp hi)
    rw [hall]
    simp

/-- C5 witness: one file, one thread, with the per-file result forced to
`ERROR_LAME`: the aggregate code is still `ERROR_NONE` and is not
`ERROR_NOT_FOUND`. -/
theorem start_encoding_result_witness :
    ((Encoder.start_encoding ["a.wav"] 1 (fun _ => true) (fun _ => ErrorCode.ERROR_LAME) =
        ErrorCode.ERROR_NOT_FOUND ↔ (["a.wav"] : List String) = []) ∧
     ((["a.wav"] : List String) ≠ [] → (∀ i, i < 1 → (fun _ : Nat => true) i = true) →
       Encoder.start_encoding ["a.wav"] 1 (fun _ => true) (fun _ => ErrorCode.ERROR_LAME) =
         ErrorCode.ERROR_NONE)) ∧
    Encoder.start_encoding ["a.wav"] 1 (fun _ => true) (fun _ => ErrorCode.ERROR_LAME) =
      ErrorCode.ERROR_NONE :=
  ⟨start_encoding_result ["a.wav"] 1 (fun _ => true) (fun _ => ErrorCode.ERROR_LAME),
   (start_encoding_result ["a.wav"] 1 (fun _ => true) (fun _ => ErrorCode.ERROR_LAME)).2
     (by simp) (fun _ _ => rfl)⟩

/-- C6: `scan_input_directory` does not return `ERROR_NOT_FOUND` when the
directory exists but zero files survive WAV validation: with one file
whose 1-byte contents fail `WaveFileWrapper::validate`, it returns
`ERROR_NONE` with an empty stored file list, although the function's own
doc comment says this case is `ERROR_NOT_FOUND`.  The missing-directory
branch does return `ERROR_NOT_FOUND`. -/
theorem scan_zero_valid_files_returns_success :
    Encoder.scan_input_directory true true ["bad.wav"] AudioFormatType.WAV
      (wavFileValid (fun _ => some [0])) = (ErrorCode.ERROR_NONE, some []) ∧
    ErrorCode.ERROR_NONE ≠ ErrorCode.ERROR_NOT_FOUND ∧
    (Encoder.scan_input_directory false true ["bad.wav"] AudioFormatType.WAV
      (wavFileValid (fun _ => some [0]))).1 = ErrorCode.ERROR_NOT_FOUND := by
  refine ⟨by rfl, by decide, by rfl⟩
